import Mathlib

/-!
Shallow embedding of the mood-classification-and-retrieval pipeline of
`src/app.py` (functions `detect_mood`, `get_spotify_token`,
`search_spotify_playlists`, `embed_spotify_player`), together with proofs
settling the frozen claims about it.

External effects (the generative-text call and the two HTTP calls) are
modelled as explicit oracle arguments; Python exceptions are modelled with
`Except`; Python JSON values are modelled by the inductive `JVal`.
-/

/-! ## JSON values and Python dict/list primitives -/

/-- A JSON value as produced by `response.json()` in Python. -/
inductive JVal where
  | null
  | bool (b : Bool)
  | num (n : Int)
  | str (s : String)
  | arr (items : List JVal)
  | obj (fields : List (String × JVal))

/-- Lookup of a key in a JSON object's field list (Python `dict` access;
JSON objects have unique keys, so first match suffices). -/
def lookupField : List (String × JVal) → String → Option JVal
  | [], _ => none
  | (k, v) :: rest, key => if k = key then some v else lookupField rest key

/-- Python truthiness of a JSON value (`if item:`): `None`, `False`, `0`,
`""`, `[]` and `{}` are falsy, everything else truthy. -/
def truthy : JVal → Bool
  | .null => false
  | .bool b => b
  | .num n => n != 0
  | .str s => s != ""
  | .arr items => !items.isEmpty
  | .obj fields => !fields.isEmpty

/-- Python `v[0]`: first element of a list (IndexError when empty), first
character of a string, KeyError on a dict (our JSON objects have no integer
keys), TypeError on anything non-subscriptable. -/
def jindex0 : JVal → Except String JVal
  | .arr (x :: _) => .ok x
  | .arr [] => .error "IndexError"
  | .str s =>
    match s.data with
    | [] => .error "IndexError"
    | c :: _ => .ok (.str (String.mk [c]))
  | .obj _ => .error "KeyError"
  | _ => .error "TypeError"

/-- Python `for x in v`: a list yields its elements, a string yields its
characters as one-character strings, a dict yields its keys, everything
else raises TypeError. -/
def iterElems : JVal → Except String (List JVal)
  | .arr items => .ok items
  | .str s => .ok (s.data.map fun c => .str (String.mk [c]))
  | .obj fields => .ok (fields.map fun kv => .str kv.1)
  | _ => .error "TypeError"

/-! ## Character-list string primitives (Python `in`, `strip`, `lower`,
`split`) -/

/-- `startsWith s pat`: `pat` is a prefix of `s`. -/
def startsWith : List Char → List Char → Bool
  | _, [] => true
  | [], _ :: _ => false
  | c :: t, p :: ps => c == p && startsWith t ps

/-- Python substring containment `pat in hay`. -/
def containsSub : List Char → List Char → Bool
  | [], pat => pat.isEmpty
  | c :: t, pat => startsWith (c :: t) pat || containsSub t pat

/-- Python `str.strip()`: drop whitespace from both ends. -/
def pyStrip (s : List Char) : List Char :=
  ((s.dropWhile Char.isWhitespace).reverse.dropWhile Char.isWhitespace).reverse

/-- Python `str.lower()` (basic-latin case mapping). -/
def pyLower (s : List Char) : List Char :=
  s.map Char.toLower

/-- Prepend a character to the head of the first group produced by a split
(helper for `splitChar`). -/
def consHead (c : Char) : List (List Char) → List (List Char)
  | [] => [[c]]
  | x :: xs => (c :: x) :: xs

/-- Python `str.split(sep)` for a one-character separator: always returns a
nonempty list of (possibly empty) groups. -/
def splitChar (sep : Char) : List Char → List (List Char)
  | [] => [[]]
  | c :: t => if c = sep then [] :: splitChar sep t else consHead c (splitChar sep t)

/-- Number of (possibly overlapping) occurrences of `pat` as a substring of
`hay`, one per starting position. -/
def countOccs (pat : List Char) : List Char → Nat
  | [] => if pat.isEmpty then 1 else 0
  | c :: t => (if startsWith (c :: t) pat then 1 else 0) + countOccs pat t

/-! ## Mood classifier (`detect_mood`, src/app.py lines 42-63) -/

/-- Outcome of the bounded generative-text call
`future.result(timeout=15)` inside `detect_mood`: the concatenated
streamed response, a `concurrent.futures.TimeoutError`, or any other
exception raised by `ask_genai` (which `future.result` re-raises). -/
inductive GenResult where
  | ok (raw : String)
  | timeout
  | failure (e : String)

/-- A single-quote character (U+0027), used inside the prompt literal. -/
def squote : String := String.mk [Char.ofNat 39]

/-- The fixed instruction prompt of `detect_mood` (line 43). -/
def detect_prompt (feeling : String) : String :=
  "The user says they feel: " ++ squote ++ feeling ++ squote ++
    ". Detect the mood in one word (happy, sad, energetic, calm)."

/-- The fixed keyword list scanned by `detect_mood` (line 60), in source
order. -/
def mood_keys : List String := ["happy", "sad", "energetic", "calm"]

/-- The keyword scan of `detect_mood` (lines 60-63): return the first key
contained in the normalized response, defaulting to "happy". -/
def moodLoop : List String → List Char → String
  | [], _ => "happy"
  | k :: ks, mood => if containsSub mood k.data then k else moodLoop ks mood

/-- `detect_mood` (lines 42-63). The generative service is an oracle `gen`
from the prompt to a `GenResult`. Only `TimeoutError` is caught (line 56)
and converted to "happy"; any other exception from the call propagates
(`Except.error`). On a response, `ask_genai` returns the concatenated
chunks, which are normalized with `.strip().lower()` (line 50) and scanned
against `mood_keys`. -/
def detect_mood (feeling : String) (gen : String → GenResult) : Except String String :=
  match gen (detect_prompt feeling) with
  | .timeout => .ok "happy"
  | .failure e => .error e
  | .ok raw => .ok (moodLoop mood_keys (pyLower (pyStrip raw.data)))

/-! ## HTTP model shared by the token provider and the playlist
retriever -/

/-- Outcome of a `requests` call: an HTTP response carrying a status code
and the result of `.json()` (which raises on an unparsable body), or a
raised exception (timeout, transport failure, ...). -/
inductive HttpResult where
  | response (status : Nat) (json : Except String JVal)
  | failure (e : String)

/-! ## Token provider (`get_spotify_token`, src/app.py lines 65-79) -/

/-- `get_spotify_token` (lines 65-79). The POST to the token endpoint is
the argument `resp`. On status 200 the function returns
`auth_response.json().get("access_token", "")`; any non-200 status or any
exception (transport failure, timeout, JSON decode error, `.get` on a
non-dict body) ends in `return ""` — the whole body sits under a broad
`except Exception`, so the function never raises. -/
def get_spotify_token (resp : HttpResult) : JVal :=
  match resp with
  | .failure _ => .str ""
  | .response status json =>
    if status = 200 then
      match json with
      | .error _ => .str ""
      | .ok body =>
        match body with
        | .obj fields => (lookupField fields "access_token").getD (.str "")
        | _ => .str ""
    else .str ""

/-! ## Playlist retriever (`search_spotify_playlists`, src/app.py lines
81-106) -/

/-- One extracted playlist record (line 96-100): the three values appended
to `playlists` for a truthy item. -/
structure PlaylistResult where
  title : JVal
  url : JVal
  image : JVal

/-- The free-text search query (line 86): `f"{language} {mood} playlist"`,
interpolated verbatim with raw spaces. -/
def search_query (mood language : String) : String :=
  language ++ " " ++ mood ++ " playlist"

/-- The request URL (line 87):
`f"https://api.spotify.com/v1/search?q={query}&type=playlist&limit=5"`. -/
def search_url (mood language : String) : String :=
  "https://api.spotify.com/v1/search?q=" ++ search_query mood language ++
    "&type=playlist&limit=5"

/-- `data.get("playlists", {}).get("items", [])` (line 93): raises
AttributeError when `data` or the `playlists` value is not a dict. -/
def getItems (data : JVal) : Except String JVal :=
  match data with
  | .obj fields =>
    match (lookupField fields "playlists").getD (.obj []) with
    | .obj g => .ok ((lookupField g "items").getD (.arr []))
    | _ => .error "AttributeError"
  | _ => .error "AttributeError"

/-- The body of the `for item in items` loop (lines 94-100) for one item:
skip falsy items; for truthy items evaluate, in order,
`item.get('name', 'Unknown')`,
`item.get('external_urls', {}).get('spotify', '#')`, and
`item.get('images', [{}])[0].get('url', '')`; any `.get` on a non-dict or
`[0]` on an empty list raises. -/
def extractItem (item : JVal) : Except String (Option PlaylistResult) :=
  if truthy item then
    match item with
    | .obj fields =>
      let title := (lookupField fields "name").getD (.str "Unknown")
      match (lookupField fields "external_urls").getD (.obj []) with
      | .obj g =>
        let url := (lookupField g "spotify").getD (.str "#")
        match jindex0 ((lookupField fields "images").getD (.arr [.obj []])) with
        | .error e => .error e
        | .ok img0 =>
          match img0 with
          | .obj h => .ok (some ⟨title, url, (lookupField h "url").getD (.str "")⟩)
          | _ => .error "AttributeError"
      | _ => .error "AttributeError"
    | _ => .error "AttributeError"
  else .ok none

/-- The full `for item in items` loop: a raised exception aborts the whole
loop (and, in `search_spotify_playlists`, sends control to the `except`
clause, which discards the partial list). -/
def extractItems : List JVal → Except String (List PlaylistResult)
  | [] => .ok []
  | item :: rest =>
    match extractItem item with
    | .error e => .error e
    | .ok none => extractItems rest
    | .ok (some p) =>
      match extractItems rest with
      | .error e => .error e
      | .ok ps => .ok (p :: ps)

/-- `search_spotify_playlists` (lines 81-106). The network is an oracle
`net` from the request URL to an `HttpResult`. Returns the extracted
records together with the list of URLs actually requested (empty when the
guard on line 82 short-circuits). Every exception inside the `try` block
(transport failure, JSON decode error, malformed shapes during
extraction) is caught on line 104 and yields `[]`; a non-200 status
likewise yields `[]` after the error message on line 102. -/
def search_spotify_playlists (mood language token : String)
    (net : String → HttpResult) : List PlaylistResult × List String :=
  if token = "" then ([], [])
  else
    let url := search_url mood language
    match net url with
    | .failure _ => ([], [url])
    | .response status json =>
      if status = 200 then
        match json with
        | .error _ => ([], [url])
        | .ok data =>
          match getItems data with
          | .error _ => ([], [url])
          | .ok its =>
            match iterElems its with
            | .error _ => ([], [url])
            | .ok elems =>
              match extractItems elems with
              | .error _ => ([], [url])
              | .ok pls => (pls, [url])
      else ([], [url])

/-! ## Embed-identifier derivation (`embed_spotify_player`, src/app.py
lines 108-109) -/

/-- The pure derivation inside `embed_spotify_player` (line 109):
`playlist_url.split("/")[-1].split("?")[0]`. Both Python splits always
return a nonempty list, so `[-1]` is the last group and `[0]` the first. -/
def embed_spotify_player (playlist_url : List Char) : List Char :=
  (splitChar '?' ((splitChar '/' playlist_url).getLastD [])).headD []

/-! ## Helper lemmas: substring occurrence -/

/-- `pat` occurs (contiguously) somewhere inside `s`. -/
def occursIn (pat s : List Char) : Prop := ∃ u v, s = u ++ pat ++ v

theorem startsWith_iff (s pat : List Char) :
    startsWith s pat = true ↔ ∃ v, s = pat ++ v := by
  induction pat generalizing s with
  | nil => simp [startsWith]
  | cons p ps ih =>
    cases s with
    | nil => simp [startsWith]
    | cons c t =>
      simp only [startsWith, Bool.and_eq_true, beq_iff_eq, ih, List.cons_append,
        List.cons.injEq]
      constructor
      · rintro ⟨hc, v, hv⟩; exact ⟨v, hc, hv⟩
      · rintro ⟨v, hc, hv⟩; exact ⟨hc, v, hv⟩

theorem containsSub_iff (s pat : List Char) :
    containsSub s pat = true ↔ occursIn pat s := by
  induction s with
  | nil =>
    simp only [containsSub, List.isEmpty_iff, occursIn]
    constructor
    · rintro rfl; exact ⟨[], [], rfl⟩
    · rintro ⟨u, v, h⟩
      rcases List.append_eq_nil.mp h.symm with ⟨h1, h2⟩
      exact (List.append_eq_nil.mp h1).2
  | cons c t ih =>
    simp only [containsSub, Bool.or_eq_true, startsWith_iff, ih, occursIn]
    constructor
    · rintro (⟨v, hv⟩ | ⟨u, v, hv⟩)
      · exact ⟨[], v, by simpa using hv⟩
      · exact ⟨c :: u, v, by simp [hv]⟩
    · rintro ⟨u, v, hv⟩
      cases u with
      | nil => exact Or.inl ⟨v, by simpa using hv⟩
      | cons a u =>
        simp only [List.cons_append, List.cons.injEq] at hv
        exact Or.inr ⟨u, v, hv.2⟩

theorem occursIn_append (w1 w2 pat Y : List Char) (h : occursIn pat Y) :
    occursIn pat (w1 ++ Y ++ w2) := by
  obtain ⟨u, v, hv⟩ := h
  exact ⟨w1 ++ u, v ++ w2, by simp [hv]⟩

theorem occursIn_reverse (pat s : List Char) :
    occursIn pat s ↔ occursIn pat.reverse s.reverse := by
  constructor
  · rintro ⟨u, v, rfl⟩
    exact ⟨v.reverse, u.reverse, by simp⟩
  · rintro ⟨u, v, hv⟩
    refine ⟨v.reverse, u.reverse, ?_⟩
    have := congrArg List.reverse hv
    simpa using this

theorem occursIn_drop_left (p : Char → Bool) (pat : List Char) (hne : pat ≠ [])
    (hp : ∀ c ∈ pat, p c = false) :
    ∀ w, (∀ c ∈ w, p c = true) → ∀ Y, occursIn pat (w ++ Y) → occursIn pat Y := by
  intro w
  induction w with
  | nil => intro _ Y h; simpa using h
  | cons a w ih =>
    intro hw Y h
    obtain ⟨u, v, hv⟩ := h
    cases u with
    | nil =>
      cases pat with
      | nil => exact absurd rfl hne
      | cons q qs =>
        simp only [List.nil_append, List.cons_append, List.cons.injEq] at hv
        have ha : p a = true := hw a (by simp)
        have hq : p q = false := hp q (by simp)
        rw [hv.1] at ha
        rw [ha] at hq
        exact absurd hq (by simp)
    | cons b u =>
      simp only [List.cons_append, List.cons.injEq] at hv
      exact ih (fun c hc => hw c (by simp [hc])) Y ⟨u, v, hv.2⟩

theorem occursIn_drop_right (p : Char → Bool) (pat : List Char) (hne : pat ≠ [])
    (hp : ∀ c ∈ pat, p c = false) (w : List Char) (hw : ∀ c ∈ w, p c = true)
    (Y : List Char) (h : occursIn pat (Y ++ w)) : occursIn pat Y := by
  rw [occursIn_reverse] at h ⊢
  rw [List.reverse_append] at h
  refine occursIn_drop_left p pat.reverse ?_ ?_ w.reverse ?_ Y.reverse h
  · simpa using hne
  · intro c hc; exact hp c (List.mem_reverse.mp hc)
  · intro c hc; exact hw c (List.mem_reverse.mp hc)

/-! ## Helper lemmas: strip/lower normalization -/

theorem pyStrip_decomp (s : List Char) :
    ∃ w1 w2, s = w1 ++ pyStrip s ++ w2 ∧
      (∀ c ∈ w1, c.isWhitespace = true) ∧ (∀ c ∈ w2, c.isWhitespace = true) := by
  refine ⟨s.takeWhile Char.isWhitespace,
    ((s.dropWhile Char.isWhitespace).reverse.takeWhile Char.isWhitespace).reverse,
    ?_, ?_, ?_⟩
  · conv_lhs => rw [← List.takeWhile_append_dropWhile (p := Char.isWhitespace) (l := s)]
    rw [List.append_assoc]
    congr 1
    have hd : (s.dropWhile Char.isWhitespace).reverse =
        (s.dropWhile Char.isWhitespace).reverse.takeWhile Char.isWhitespace ++
        (s.dropWhile Char.isWhitespace).reverse.dropWhile Char.isWhitespace :=
      (List.takeWhile_append_dropWhile _ _).symm
    have h3 := congrArg List.reverse hd
    rw [List.reverse_reverse, List.reverse_append] at h3
    exact h3
  · intro c hc; exact List.mem_takeWhile_imp hc
  · intro c hc; exact List.mem_takeWhile_imp (List.mem_reverse.mp hc)

theorem toLower_ws (c : Char) (h : c.isWhitespace = true) : c.toLower = c := by
  simp only [Char.isWhitespace, Bool.or_eq_true, decide_eq_true_eq] at h
  rcases h with ((h | h) | h) | h <;> subst h <;> decide

theorem pyLower_ws_id (w : List Char) (hw : ∀ c ∈ w, c.isWhitespace = true) :
    pyLower w = w := by
  induction w with
  | nil => rfl
  | cons c t ih =>
    simp only [pyLower, List.map_cons]
    rw [toLower_ws c (hw c (by simp))]
    have := ih fun c hc => hw c (by simp [hc])
    simpa [pyLower] using this

theorem containsSub_pyLower_pyStrip (s pat : List Char) (hne : pat ≠ [])
    (hp : ∀ c ∈ pat, c.isWhitespace = false) :
    containsSub (pyLower (pyStrip s)) pat = containsSub (pyLower s) pat := by
  obtain ⟨w1, w2, hs, h1, h2⟩ := pyStrip_decomp s
  have hmap : pyLower s = w1 ++ pyLower (pyStrip s) ++ w2 := by
    conv_lhs => rw [hs]
    simp only [pyLower, List.map_append]
    rw [show List.map Char.toLower w1 = pyLower w1 from rfl,
      show List.map Char.toLower w2 = pyLower w2 from rfl,
      pyLower_ws_id w1 h1, pyLower_ws_id w2 h2]
  have key : occursIn pat (pyLower (pyStrip s)) ↔ occursIn pat (pyLower s) := by
    constructor
    · intro h; rw [hmap]; exact occursIn_append _ _ _ _ h
    · intro h
      rw [hmap, List.append_assoc] at h
      have h3 := occursIn_drop_left Char.isWhitespace pat hne hp w1 h1 _ h
      exact occursIn_drop_right Char.isWhitespace pat hne hp w2 h2 _ h3
  have hiff := (containsSub_iff (pyLower (pyStrip s)) pat).trans
    (key.trans (containsSub_iff (pyLower s) pat).symm)
  exact Bool.eq_iff_iff.mpr hiff

/-! ## Helper lemmas: the keyword scan -/

theorem moodLoop_eq_find (ks : List String) (m : List Char) :
    moodLoop ks m = ((ks.find? fun k => containsSub m k.data).getD "happy") := by
  induction ks with
  | nil => rfl
  | cons k ks ih =>
    cases h : containsSub m k.data with
    | true => simp [moodLoop, h, List.find?_cons_of_pos]
    | false => simp [moodLoop, h, List.find?_cons_of_neg, ih]

theorem moodLoop_mem (m : List Char) :
    moodLoop mood_keys m = "happy" ∨ moodLoop mood_keys m = "sad" ∨
    moodLoop mood_keys m = "energetic" ∨ moodLoop mood_keys m = "calm" := by
  simp only [mood_keys, moodLoop]
  split
  · exact Or.inl rfl
  split
  · exact Or.inr (Or.inl rfl)
  split
  · exact Or.inr (Or.inr (Or.inl rfl))
  split
  · exact Or.inr (Or.inr (Or.inr rfl))
  · exact Or.inl rfl

/-- Case-insensitive substring containment of `pat` in `s` (both sides
mapped through the basic-latin lower-case function). -/
def containsCI (s pat : String) : Bool :=
  containsSub (pyLower s.data) (pyLower pat.data)

/-! ## Helper lemmas: split -/

theorem consHead_ne_nil (c : Char) (l : List (List Char)) : consHead c l ≠ [] := by
  cases l <;> simp [consHead]

theorem splitChar_ne_nil (sep : Char) (s : List Char) : splitChar sep s ≠ [] := by
  cases s with
  | nil => simp [splitChar]
  | cons c t =>
    simp only [splitChar]
    split
    · simp
    · exact consHead_ne_nil c _

theorem consHead_append (c : Char) (a b : List (List Char)) (h : a ≠ []) :
    consHead c (a ++ b) = consHead c a ++ b := by
  cases a with
  | nil => exact absurd rfl h
  | cons x xs => simp [consHead]

theorem splitChar_cons_self (sep : Char) (t : List Char) :
    splitChar sep (sep :: t) = [] :: splitChar sep t := by
  simp [splitChar]

theorem splitChar_cons_ne (sep c : Char) (t : List Char) (h : c ≠ sep) :
    splitChar sep (c :: t) = consHead c (splitChar sep t) := by
  simp [splitChar, h]

theorem splitChar_append (sep : Char) (xs ys : List Char) :
    splitChar sep (xs ++ sep :: ys) = splitChar sep xs ++ splitChar sep ys := by
  induction xs with
  | nil => simp [splitChar]
  | cons c t ih =>
    by_cases h : c = sep
    · subst h
      rw [List.cons_append, splitChar_cons_self, ih, splitChar_cons_self,
        List.cons_append]
    · rw [List.cons_append, splitChar_cons_ne sep c _ h, ih,
        splitChar_cons_ne sep c t h,
        consHead_append c _ _ (splitChar_ne_nil sep t)]

theorem splitChar_of_not_mem (sep : Char) (s : List Char)
    (h : ∀ c ∈ s, c ≠ sep) : splitChar sep s = [s] := by
  induction s with
  | nil => rfl
  | cons c t ih =>
    have hc : c ≠ sep := h c (by simp)
    rw [splitChar, if_neg hc, ih fun x hx => h x (by simp [hx])]
    rfl

theorem consHead_headD (c : Char) (l : List (List Char)) :
    (consHead c l).headD [] = c :: l.headD [] := by
  cases l <;> rfl

theorem headD_splitChar (sep : Char) (s : List Char) :
    (splitChar sep s).headD [] = s.takeWhile (fun c => c != sep) := by
  induction s with
  | nil => rfl
  | cons c t ih =>
    by_cases h : c = sep
    · subst h
      rw [splitChar_cons_self, List.takeWhile_cons]
      simp
    · rw [splitChar_cons_ne sep c t h, consHead_headD, ih, List.takeWhile_cons]
      simp [h]

theorem getLastD_indep {α : Type} (B : List α) (hB : B ≠ []) (d d' : α) :
    B.getLastD d = B.getLastD d' := by
  cases B with
  | nil => exact absurd rfl hB
  | cons b B => rw [List.getLastD_cons, List.getLastD_cons]

theorem getLastD_append {α : Type} (A B : List α) (hB : B ≠ []) (d : α) :
    (A ++ B).getLastD d = B.getLastD d := by
  induction A generalizing d with
  | nil => rfl
  | cons a A ih =>
    rw [List.cons_append, List.getLastD_cons, ih a]
    exact getLastD_indep B hB a d

/-! ## Helper lemmas: result extraction -/

theorem extractItems_length (elems : List JVal) (l : List PlaylistResult)
    (h : extractItems elems = .ok l) : l.length ≤ elems.length := by
  induction elems generalizing l with
  | nil =>
    simp only [extractItems] at h
    cases h
    simp
  | cons item rest ih =>
    simp only [extractItems] at h
    cases hi : extractItem item with
    | error e => rw [hi] at h; cases h
    | ok o =>
      rw [hi] at h
      cases o with
      | none =>
        have := ih l h
        simpa using Nat.le_succ_of_le this
      | some p =>
        cases hr : extractItems rest with
        | error e => rw [hr] at h; cases h
        | ok ps =>
          rw [hr] at h
          cases h
          simpa using ih ps hr

/-- A truthy result item that the extraction loop can process without
raising: an object whose `external_urls` field, if present, is an object,
and whose `images` field, if present, is a nonempty array whose first
element is an object. -/
def goodItem (item : JVal) : Bool :=
  match item with
  | .obj fields =>
    (match lookupField fields "external_urls" with
     | none => true
     | some (.obj _) => true
     | some _ => false) &&
    (match lookupField fields "images" with
     | none => true
     | some (.arr (.obj _ :: _)) => true
     | some _ => false)
  | _ => false

/-- Modelled from the spec's words (section 4.3): the record extracted
from one result item — display name defaulting to "Unknown" when absent,
external link defaulting to the placeholder "#" when absent, first image
URL defaulting to the empty string when none is present. -/
def specRecord (item : JVal) : PlaylistResult :=
  match item with
  | .obj fields =>
    { title := (lookupField fields "name").getD (.str "Unknown")
      url :=
        match lookupField fields "external_urls" with
        | some (.obj g) => (lookupField g "spotify").getD (.str "#")
        | _ => .str "#"
      image :=
        match lookupField fields "images" with
        | some (.arr (.obj h :: _)) => (lookupField h "url").getD (.str "")
        | _ => .str "" }
  | _ => { title := .str "Unknown", url := .str "#", image := .str "" }

theorem extractItem_falsy (item : JVal) (h : truthy item = false) :
    extractItem item = .ok none := by
  simp [extractItem, h]

theorem extractItem_good (item : JVal) (ht : truthy item = true)
    (hg : goodItem item = true) :
    extractItem item = .ok (some (specRecord item)) := by
  cases item with
  | obj fields =>
    simp only [goodItem, Bool.and_eq_true] at hg
    obtain ⟨hE, hI⟩ := hg
    simp only [extractItem, ht, if_true, specRecord]
    cases hEl : lookupField fields "external_urls" with
    | none =>
      simp only [hEl, Option.getD_none]
      cases hIl : lookupField fields "images" with
      | none => simp [hIl, jindex0, lookupField]
      | some img =>
        rw [hIl] at hI
        cases img with
        | arr items =>
          cases items with
          | nil => simp at hI
          | cons i0 irest =>
            cases i0 with
            | obj h0 => simp [hIl, jindex0, lookupField]
            | null => simp at hI
            | bool b => simp at hI
            | num n => simp at hI
            | str s => simp at hI
            | arr a => simp at hI
        | null => simp at hI
        | bool b => simp at hI
        | num n => simp at hI
        | str s => simp at hI
        | obj o => simp at hI
    | some ev =>
      rw [hEl] at hE
      cases ev with
      | obj g =>
        simp only [hEl, Option.getD_some]
        cases hIl : lookupField fields "images" with
        | none => simp [hIl, jindex0, lookupField]
        | some img =>
          rw [hIl] at hI
          cases img with
          | arr items =>
            cases items with
            | nil => simp at hI
            | cons i0 irest =>
              cases i0 with
              | obj h0 => simp [hIl, jindex0, lookupField]
              | null => simp at hI
              | bool b => simp at hI
              | num n => simp at hI
              | str s => simp at hI
              | arr a => simp at hI
          | null => simp at hI
          | bool b => simp at hI
          | num n => simp at hI
          | str s => simp at hI
          | obj o => simp at hI
      | null => simp at hE
      | bool b => simp at hE
      | num n => simp at hE
      | str s => simp at hE
      | arr a => simp at hE
  | null => simp [truthy] at ht
  | bool b => simp [goodItem] at hg
  | num n => simp [goodItem] at hg
  | str s => simp [goodItem] at hg
  | arr a => simp [goodItem] at hg

theorem extractItems_good (items : List JVal)
    (h : ∀ item ∈ items, truthy item = false ∨ goodItem item = true) :
    extractItems items = .ok ((items.filter truthy).map specRecord) := by
  induction items with
  | nil => rfl
  | cons item rest ih =>
    have hrest := ih fun i hi => h i (by simp [hi])
    cases ht : truthy item with
    | false =>
      rw [extractItems, extractItem_falsy item ht, hrest,
        List.filter_cons_of_neg (by simp [ht])]
    | true =>
      rcases h item (by simp) with hf | hg
      · rw [ht] at hf; cases hf
      · rw [extractItems, extractItem_good item ht hg, hrest,
          List.filter_cons_of_pos (by simp [ht]), List.map_cons]

/-- A 200 search response whose body is `{"playlists": {"items": items}}`. -/
def itemsResponse (items : List JVal) : HttpResult :=
  .response 200 (.ok (.obj [("playlists", .obj [("items", .arr items)])]))

/-- The element list the extraction loop of `search_spotify_playlists`
would iterate over for a given call outcome, when every step up to the
loop succeeds. -/
def parsedElems (r : HttpResult) : Option (List JVal) :=
  match r with
  | .failure _ => none
  | .response status json =>
    if status = 200 then
      match json with
      | .error _ => none
      | .ok data =>
        match getItems data with
        | .error _ => none
        | .ok its =>
          match iterElems its with
          | .error _ => none
          | .ok elems => some elems
    else none

theorem search_200_items_ok (mood language token : String) (net : String → HttpResult)
    (items : List JVal) (pls : List PlaylistResult) (ht : ¬token = "")
    (hnet : net (search_url mood language) = itemsResponse items)
    (hex : extractItems items = .ok pls) :
    search_spotify_playlists mood language token net
      = (pls, [search_url mood language]) := by
  simp only [search_spotify_playlists]
  rw [if_neg ht, hnet]
  have h2 : (match extractItems items with
      | Except.error _ => (([] : List PlaylistResult), [search_url mood language])
      | Except.ok pls => (pls, [search_url mood language]))
      = (pls, [search_url mood language]) := by rw [hex]
  exact h2

theorem search_calls (mood language token : String) (net : String → HttpResult)
    (ht : ¬token = "") :
    (search_spotify_playlists mood language token net).2 = [search_url mood language] := by
  simp only [search_spotify_playlists, if_neg ht]
  repeat' split
  all_goals rfl

/-! ## Claims -/

/-- C4: `get_spotify_token` returns, on an HTTP 200 response, the
`access_token` field of the JSON body and the empty string when that field
is missing; on any non-2xx response (e.g. a 400 for invalid credentials),
timeout, or transport failure it returns the empty string and never raises
(the whole body is wrapped in a broad exception handler). -/
theorem claim_C4 :
    (∀ fields v, lookupField fields "access_token" = some v →
      get_spotify_token (.response 200 (.ok (.obj fields))) = v) ∧
    (∀ fields, lookupField fields "access_token" = none →
      get_spotify_token (.response 200 (.ok (.obj fields))) = .str "") ∧
    (∀ status json, ¬(200 ≤ status ∧ status < 300) →
      get_spotify_token (.response status json) = .str "") ∧
    (∀ e, get_spotify_token (.failure e) = .str "") := by
  refine ⟨?_, ?_, ?_, ?_⟩
  · intro fields v h
    simp [get_spotify_token, h]
  · intro fields h
    simp [get_spotify_token, h]
  · intro status json h
    have hs : status ≠ 200 := by omega
    simp [get_spotify_token, hs]
  · intro e
    rfl

/-- Witness for C4 at concrete inputs: a 200 body carrying a token, a 200
body missing the field, a 400 response, and a transport failure. -/
theorem claim_C4_witness :
    get_spotify_token (.response 200 (.ok (.obj [("access_token", .str "tok123")])))
        = .str "tok123" ∧
    get_spotify_token (.response 200 (.ok (.obj [("scope", .str "x")]))) = .str "" ∧
    get_spotify_token (.response 400 (.ok (.obj [("error", .str "invalid_client")])))
        = .str "" ∧
    get_spotify_token (.failure "ConnectTimeout") = .str "" :=
  ⟨claim_C4.1 _ _ rfl, claim_C4.2.1 _ rfl,
   claim_C4.2.2.1 400 _ (by omega), claim_C4.2.2.2 "ConnectTimeout"⟩

/-- C5: for every mood and language, `search_spotify_playlists` called
with an empty token returns the empty list immediately, with an empty list
of requested URLs — no network call is attempted. -/
theorem claim_C5 : ∀ (mood language : String) (net : String → HttpResult),
    search_spotify_playlists mood language "" net = ([], []) := by
  intro mood language net
  rfl

/-- C10: a 200 search response whose JSON body lacks the "playlists" key,
or whose "playlists" object lacks the "items" key, yields the empty list
without raising — the defaults `{}` and `[]` of the two `.get` calls turn
missing structure into an empty iteration. -/
theorem claim_C10 : ∀ (mood language token : String) (net : String → HttpResult)
    (fields : List (String × JVal)),
    token ≠ "" →
    net (search_url mood language) = .response 200 (.ok (.obj fields)) →
    ((lookupField fields "playlists" = none →
        search_spotify_playlists mood language token net
          = ([], [search_url mood language])) ∧
     (∀ g, lookupField fields "playlists" = some (.obj g) →
        lookupField g "items" = none →
        search_spotify_playlists mood language token net
          = ([], [search_url mood language]))) := by
  intro mood language token net fields ht hnet
  constructor
  · intro hp
    simp [search_spotify_playlists, if_neg ht, hnet, getItems, hp, lookupField,
      iterElems, extractItems]
  · intro g hp hi
    simp [search_spotify_playlists, if_neg ht, hnet, getItems, hp, hi, lookupField,
      iterElems, extractItems]

/-- Witness for C10 at concrete inputs: a 200 body with no "playlists"
key, and one whose "playlists" object has no "items" key. -/
theorem claim_C10_witness :
    search_spotify_playlists "happy" "English" "tok"
      (fun _ => .response 200 (.ok (.obj [("error", .str "x")])))
        = ([], [search_url "happy" "English"]) ∧
    search_spotify_playlists "happy" "English" "tok"
      (fun _ => .response 200 (.ok (.obj [("playlists", .obj [("total", .num 0)])])))
        = ([], [search_url "happy" "English"]) :=
  ⟨(claim_C10 "happy" "English" "tok" _ [("error", JVal.str "x")]
      (by decide) rfl).1 rfl,
   (claim_C10 "happy" "English" "tok" _
      [("playlists", JVal.obj [("total", JVal.num 0)])] (by decide) rfl).2
      [("total", JVal.num 0)] rfl rfl⟩

/-- C6 (amended): on a 200 search response each of whose items is either
falsy (skipped, as `null` is) or a well-shaped object (`external_urls`
absent or an object; `images` absent or a nonempty array headed by an
object), `search_spotify_playlists` returns exactly the records of the
truthy items in input order, with name defaulting to "Unknown", link to
"#", and image to "" when the corresponding field is absent. An item
violating the shape assumptions (e.g. `"images": []`) raises inside the
loop and the whole call returns `[]`. -/
theorem claim_C6_amended : ∀ (mood language token : String)
    (net : String → HttpResult) (items : List JVal),
    token ≠ "" →
    net (search_url mood language) = itemsResponse items →
    (∀ item ∈ items, truthy item = false ∨ goodItem item = true) →
    search_spotify_playlists mood language token net
      = ((items.filter truthy).map specRecord, [search_url mood language]) := by
  intro mood language token net items ht hnet hwf
  exact search_200_items_ok mood language token net items _ ht hnet
    (extractItems_good items hwf)

/-- The 200 response of the C7 counterexample: six valid items, which the
server would never send under `limit=5`, but which nothing in the code
truncates. -/
def c7_six_items : List JVal := List.replicate 6 (JVal.obj [("name", JVal.str "X")])

/-- C7 counterexample: a 200 response carrying six items yields a list of
length six — the claimed bound of 5 is not enforced by the code. -/
theorem claim_C7_counterexample :
    (search_spotify_playlists "happy" "English" "tok"
      (fun _ => itemsResponse c7_six_items)).1.length = 6 ∧
    ¬((search_spotify_playlists "happy" "English" "tok"
      (fun _ => itemsResponse c7_six_items)).1.length ≤ 5) :=
  ⟨rfl, by decide⟩

/-- C7 (amended): the returned list is bounded by the number of items in
the response: whenever every successfully parsed response at the search
URL carries at most 5 items (as the `limit=5` request parameter asks of
the server), the result has length at most 5. The code itself does not
truncate; the bound is inherited from the server honoring `limit=5`. -/
theorem claim_C7_amended : ∀ (mood language token : String)
    (net : String → HttpResult),
    (∀ elems, parsedElems (net (search_url mood language)) = some elems →
      elems.length ≤ 5) →
    (search_spotify_playlists mood language token net).1.length ≤ 5 := by
  intro mood language token net h
  by_cases ht : token = ""
  · simp [search_spotify_playlists, ht]
  · simp only [search_spotify_playlists, if_neg ht]
    repeat' split
    all_goals try exact Nat.zero_le 5
    rename_i resp status hs json1 body1 hnet2 json2 body2 hgi x1 elems hie x2 ps hex
    subst hs
    have hp : parsedElems (net (search_url mood language)) = some elems := by
      rw [hnet2]
      simp [parsedElems, hgi, hie]
    exact le_trans (extractItems_length elems ps hex) (h elems hp)

/-- Witness for C7 (amended) at a concrete input: a parsed response with
one item satisfies the bound hypothesis, and the result length is ≤ 5. -/
theorem claim_C7_witness :
    (search_spotify_playlists "happy" "English" "tok"
      (fun _ => itemsResponse [JVal.obj [("name", JVal.str "X")]])).1.length ≤ 5 :=
  claim_C7_amended "happy" "English" "tok"
    (fun _ => itemsResponse [JVal.obj [("name", JVal.str "X")]])
    (fun elems h => by
      have h4 : elems = [JVal.obj [("name", JVal.str "X")]] :=
        Option.some.inj (h.symm.trans rfl)
      rw [h4]
      decide)

/-- The items of the C6 counterexample: two truthy, non-null objects, the
second with an explicitly empty `images` array. -/
def c6_bad_items : List JVal :=
  [JVal.obj [("name", JVal.str "A")],
   JVal.obj [("name", JVal.str "B"), ("images", JVal.arr [])]]

/-- C6 counterexample: both items are truthy non-null objects, so the
claim requires two extracted records; but the second item's empty `images`
array raises IndexError at `[0]`, the handler discards the partial list,
and the call returns no records at all. -/
theorem claim_C6_counterexample :
    truthy (JVal.obj [("name", JVal.str "A")]) = true ∧
    truthy (JVal.obj [("name", JVal.str "B"), ("images", JVal.arr [])]) = true ∧
    (search_spotify_playlists "happy" "English" "tok"
      (fun _ => itemsResponse c6_bad_items)).1 = [] :=
  ⟨rfl, rfl, rfl⟩

/-- A fully populated playlist item used by the C6 witness. -/
def c6_item1 : JVal := JVal.obj
  [("name", JVal.str "Lofi"),
   ("external_urls", JVal.obj
     [("spotify", JVal.str "https://open.spotify.com/playlist/abc")]),
   ("images", JVal.arr [JVal.obj [("url", JVal.str "https://i.scdn.co/img.jpg")]])]

/-- A minimal playlist item (only a name) used by the C6 witness. -/
def c6_item2 : JVal := JVal.obj [("name", JVal.str "Mix")]

/-- Witness for C6 (amended): a 200 response with two valid items and one
null item yields exactly the two records, in input order, with the "#"
and "" defaults filled in for the second item. -/
theorem claim_C6_witness :
    search_spotify_playlists "sad" "Hindi" "tok"
      (fun _ => itemsResponse [c6_item1, JVal.null, c6_item2])
      = ([⟨JVal.str "Lofi", JVal.str "https://open.spotify.com/playlist/abc",
            JVal.str "https://i.scdn.co/img.jpg"⟩,
          ⟨JVal.str "Mix", JVal.str "#", JVal.str ""⟩],
         [search_url "sad" "Hindi"]) := by
  have h := claim_C6_amended "sad" "Hindi" "tok"
    (fun _ => itemsResponse [c6_item1, JVal.null, c6_item2])
    [c6_item1, JVal.null, c6_item2] (by decide) rfl ?wf
  · exact h
  case wf =>
    intro i hi
    simp only [List.mem_cons, List.not_mem_nil, or_false] at hi
    rcases hi with rfl | rfl | rfl
    · exact Or.inr rfl
    · exact Or.inl rfl
    · exact Or.inr rfl

/-- C8 counterexample: the query built on line 86 is the plain
concatenation with raw spaces — it is not URL-encoded (an encoded string
contains no space character). -/
theorem claim_C8_counterexample :
    search_query "energetic" "Tamil" = "Tamil energetic playlist" ∧
    countOccs " ".data (search_query "energetic" "Tamil").data = 2 ∧
    search_query "energetic" "Tamil" ≠ "Tamil%20energetic%20playlist" :=
  ⟨rfl, by decide, by decide⟩

/-- C8 (amended): the query is the plain space-separated concatenation of
the language name, the mood label and the literal "playlist" (encoding is
left to the HTTP client library); in the Tamil/energetic scenario it
contains "Tamil", "energetic" and "playlist" exactly once each; the
construction is a pure function of mood and language, and every call with
a nonempty token requests exactly the one URL built from that query. -/
theorem claim_C8_amended : ∀ (mood language token : String)
    (net : String → HttpResult),
    search_query mood language = language ++ " " ++ mood ++ " playlist" ∧
    search_url mood language
      = "https://api.spotify.com/v1/search?q=" ++ search_query mood language ++
        "&type=playlist&limit=5" ∧
    countOccs "Tamil".data (search_query "energetic" "Tamil").data = 1 ∧
    countOccs "energetic".data (search_query "energetic" "Tamil").data = 1 ∧
    countOccs "playlist".data (search_query "energetic" "Tamil").data = 1 ∧
    (token ≠ "" →
      (search_spotify_playlists mood language token net).2
        = [search_url mood language]) := by
  intro mood language token net
  refine ⟨rfl, rfl, by decide, by decide, by decide, ?_⟩
  intro ht
  exact search_calls mood language token net ht

/-- Witness for C8 (amended) at a concrete input: with a nonempty token
the single requested URL is the one built from the query. -/
theorem claim_C8_witness :
    (search_spotify_playlists "energetic" "Tamil" "tok"
      (fun _ => HttpResult.failure "x")).2 = [search_url "energetic" "Tamil"] :=
  (claim_C8_amended "energetic" "Tamil" "tok"
    (fun _ => HttpResult.failure "x")).2.2.2.2.2 (by decide)

/-- C9: the embed-identifier derivation is a pure string transform
computing the final "/"-separated segment with any "?"-suffix stripped:
prepending any prefix ending in "/" leaves the result unchanged, and on a
slash-free segment the result is the segment truncated at the first "?". -/
theorem claim_C9 :
    (∀ pre rest : List Char,
      embed_spotify_player (pre ++ '/' :: rest) = embed_spotify_player rest) ∧
    (∀ seg : List Char, (∀ c ∈ seg, c ≠ '/') →
      embed_spotify_player seg = seg.takeWhile (fun c => c != '?')) := by
  constructor
  · intro pre rest
    unfold embed_spotify_player
    rw [splitChar_append, getLastD_append _ _ (splitChar_ne_nil '/' rest)]
  · intro seg h
    unfold embed_spotify_player
    rw [splitChar_of_not_mem '/' seg h]
    have hl : ([seg] : List (List Char)).getLastD [] = seg := rfl
    rw [hl, headD_splitChar]

/-- Witness for C9 at a concrete URL: the full playlist link reduces to
its last segment, and the segment drops its query suffix. -/
theorem claim_C9_witness :
    embed_spotify_player
        ("https:/".data ++ '/' :: "open.spotify.com/playlist/37i9?si=ab".data)
      = embed_spotify_player "open.spotify.com/playlist/37i9?si=ab".data ∧
    embed_spotify_player "37i9?si=ab".data = "37i9".data := by
  constructor
  · exact claim_C9.1 "https:/".data "open.spotify.com/playlist/37i9?si=ab".data
  · rw [claim_C9.2 "37i9?si=ab".data (by decide)]
    decide

/-- C1: for every feeling text and every raw classifier response,
`detect_mood` returns exactly one of the four strings "happy", "sad",
"energetic", "calm" — never any other string; a timeout likewise yields
"happy". -/
theorem claim_C1 : ∀ (feeling raw : String),
    (detect_mood feeling (fun _ => GenResult.ok raw) = .ok "happy" ∨
     detect_mood feeling (fun _ => GenResult.ok raw) = .ok "sad" ∨
     detect_mood feeling (fun _ => GenResult.ok raw) = .ok "energetic" ∨
     detect_mood feeling (fun _ => GenResult.ok raw) = .ok "calm") ∧
    detect_mood feeling (fun _ => GenResult.timeout) = .ok "happy" := by
  intro feeling raw
  constructor
  · have h := moodLoop_mem (pyLower (pyStrip raw.data))
    simp only [detect_mood]
    rcases h with h | h | h | h
    · exact Or.inl (by rw [h])
    · exact Or.inr (Or.inl (by rw [h]))
    · exact Or.inr (Or.inr (Or.inl (by rw [h])))
    · exact Or.inr (Or.inr (Or.inr (by rw [h])))
  · rfl

/-- C2: `detect_mood` normalizes the raw response (strip, then basic-latin
lower-case) and scans the four canonical labels in the fixed priority
order happy, sad, energetic, calm, returning the first one contained as a
substring (the `find?` formulation); in particular a response containing
"sad" case-insensitively but not "happy" yields "sad", and a response
containing none of the four keywords yields the default "happy". -/
theorem claim_C2 : ∀ (feeling raw : String),
    (detect_mood feeling (fun _ => GenResult.ok raw)
      = .ok ((mood_keys.find? fun k =>
          containsSub (pyLower (pyStrip raw.data)) k.data).getD "happy")) ∧
    (containsCI raw "sad" = true → containsCI raw "happy" = false →
      detect_mood feeling (fun _ => GenResult.ok raw) = .ok "sad") ∧
    ((∀ k ∈ mood_keys, containsCI raw k = false) →
      detect_mood feeling (fun _ => GenResult.ok raw) = .ok "happy") := by
  intro feeling raw
  have hbridge : ∀ k : String, k.data ≠ [] →
      (∀ c ∈ k.data, c.isWhitespace = false) → pyLower k.data = k.data →
      containsSub (pyLower (pyStrip raw.data)) k.data = containsCI raw k := by
    intro k h1 h2 h3
    rw [containsCI, h3]
    exact containsSub_pyLower_pyStrip raw.data k.data h1 h2
  have hb1 := hbridge "happy" (by decide) (by decide) (by decide)
  have hb2 := hbridge "sad" (by decide) (by decide) (by decide)
  have hb3 := hbridge "energetic" (by decide) (by decide) (by decide)
  have hb4 := hbridge "calm" (by decide) (by decide) (by decide)
  refine ⟨?_, ?_, ?_⟩
  · simp only [detect_mood, moodLoop_eq_find]
  · intro h1 h2
    have e1 : containsSub (pyLower (pyStrip raw.data)) "happy".data = false := by
      rw [hb1]; exact h2
    have e2 : containsSub (pyLower (pyStrip raw.data)) "sad".data = true := by
      rw [hb2]; exact h1
    simp [detect_mood, mood_keys, moodLoop, e1, e2]
  · intro hall
    have e1 : containsSub (pyLower (pyStrip raw.data)) "happy".data = false := by
      rw [hb1]; exact hall "happy" (by simp [mood_keys])
    have e2 : containsSub (pyLower (pyStrip raw.data)) "sad".data = false := by
      rw [hb2]; exact hall "sad" (by simp [mood_keys])
    have e3 : containsSub (pyLower (pyStrip raw.data)) "energetic".data = false := by
      rw [hb3]; exact hall "energetic" (by simp [mood_keys])
    have e4 : containsSub (pyLower (pyStrip raw.data)) "calm".data = false := by
      rw [hb4]; exact hall "calm" (by simp [mood_keys])
    simp [detect_mood, mood_keys, moodLoop, e1, e2, e3, e4]

/-- Witness for C2 at concrete responses: a sentence containing "Sad"
(case-insensitively, no "happy") yields "sad"; a sentence containing none
of the keywords yields the default "happy". -/
theorem claim_C2_witness :
    detect_mood "tired" (fun _ => GenResult.ok "I think the user feels quite Sad today")
      = .ok "sad" ∧
    detect_mood "tired" (fun _ => GenResult.ok "I am not sure") = .ok "happy" :=
  ⟨(claim_C2 "tired" "I think the user feels quite Sad today").2.1
      (by decide) (by decide),
   (claim_C2 "tired" "I am not sure").2.2 (by decide)⟩

/-- C3 counterexample: a non-timeout failure of the classifier call (any
exception other than `TimeoutError`) is not caught by `detect_mood`: it
propagates past the component boundary instead of degrading to "happy". -/
theorem claim_C3_counterexample :
    detect_mood "tired" (fun _ => GenResult.failure "ServiceUnavailable")
      = Except.error "ServiceUnavailable" ∧
    detect_mood "tired" (fun _ => GenResult.failure "ServiceUnavailable")
      ≠ Except.ok "happy" := by
  refine ⟨rfl, ?_⟩
  intro h
  have h2 : (Except.error "ServiceUnavailable" : Except String String)
      = Except.ok "happy" := h
  cases h2

/-- C3 (amended): only the timeout failure of the classifier call is
caught inside `detect_mood` and converted to the default "happy" (with an
advisory message); every other exception raised by the call is re-raised
past the component boundary. -/
theorem claim_C3_amended : ∀ (feeling : String),
    detect_mood feeling (fun _ => GenResult.timeout) = .ok "happy" ∧
    (∀ e, detect_mood feeling (fun _ => GenResult.failure e) = Except.error e) := by
  intro feeling
  exact ⟨rfl, fun e => rfl⟩
